import Mathlib

/-!
Shallow embedding of the request.js payment-network core, translated from the
TypeScript / Solidity sources:

* `packages/advanced-logic/src/extensions/payment-network/any-to-erc20-proxy.ts`
  (`AnyToErc20ProxyPaymentNetwork`): supported-currency table,
  `checkSupportedCurrency`, `createCreationAction`, `applyActionToExtension`.
* `packages/request-client.js/src/api/payment-network/erc20/address-based.ts`
  (`PaymentNetworkERC20AddressBased`): `getBalance`, `extractBalanceAndEvents`.
* `packages/toolbox/src/chainlinkConversionPathTools.ts`
  (`ChainlinkConversionPathTools.getAggregators`): the aggregator-map fold.
* `ProxyChainlinkConversionPath.sol`: `getConversions` with its
  `maxTimestampDeltaAcceptable` freshness gate (SafeMath uint256 arithmetic).

JavaScript strings are modelled by `String`, JS `number` timestamps by `Nat`,
bn.js arbitrary-precision integers by `Int`, Solidity `uint256` by `Nat` with
SafeMath overflow checks, thrown exceptions by `Except String`, and the
in-place mutation performed by `getBalance` by returning the post-call request
alongside the result.  External collaborators that the dispatched code calls
(the base fee-proxy class, `ReferenceBased` helpers, the event retriever, the
on-chain `getRate`) are passed in as function parameters, exactly where the
source calls `this.…`, `super.…` or an injected retriever.
-/

/-- JS `String.prototype.toLowerCase()` on the ASCII data handled here:
lower-cases every character. -/
def toLowerCase (s : String) : String :=
  String.mk (s.data.map Char.toLower)

/-- JS truthiness of an optional string: `undefined` and `""` are falsy. -/
def isFalsyStr : Option String → Bool
  | none => true
  | some s => s = ""

/-- JS `x || dflt` on an optional string (`undefined` and `""` fall back). -/
def falsyOr (o : Option String) (dflt : String) : String :=
  match o with
  | none => dflt
  | some s => if s = "" then dflt else s

/-- JS object / `Map` keyed update: an existing key keeps its position and gets
the new value, a fresh key is appended at the end. -/
def mapSet {β : Type} (m : List (String × β)) (k : String) (v : β) :
    List (String × β) :=
  if m.any (fun p => p.1 = k) then
    m.map (fun p => if p.1 = k then (k, v) else p)
  else
    m ++ [(k, v)]

/-- JS `Map.prototype.delete` / `delete obj[k]`: drop the entry for `k`. -/
def mapDelete {β : Type} (m : List (String × β)) (k : String) :
    List (String × β) :=
  m.filter (fun p => p.1 != k)

namespace AnyToErc20

/-- `RequestLogicTypes.CURRENCY` (from `@requestnetwork/types`). -/
inductive CURRENCY : Type
  | ISO4217
  | ERC20
  | ETH
  | BTC
deriving DecidableEq, Repr

/-- `RequestLogicTypes.ICurrency`: the request's invoicing currency. -/
structure ICurrency : Type where
  type : CURRENCY
  value : String
deriving DecidableEq, Repr

/-- Default network if the storage data does not give any
(`DEFAULT_NETWORK = 'mainnet'`). -/
def DEFAULT_NETWORK : String := "mainnet"

/-- `supportedCurrencies.private` from `any-to-erc20-proxy.ts`. -/
def privateCurrencies : CURRENCY → List String
  | CURRENCY.ISO4217 => ["USD", "EUR"]
  | CURRENCY.ERC20 => ["0x38cf23c52bb4b13f051aec09580a2de845a7fa35"]
  | CURRENCY.ETH => ["ETH"]
  | CURRENCY.BTC => []

/-- `supportedCurrencies.rinkeby` from `any-to-erc20-proxy.ts`. -/
def rinkebyCurrencies : CURRENCY → List String
  | CURRENCY.ISO4217 => ["EUR", "GBP", "USD"]
  | CURRENCY.ERC20 => ["0xfab46e002bbf0b4509813474841e0716e6730136"]
  | CURRENCY.ETH => ["ETH"]
  | CURRENCY.BTC => []

/-- `supportedCurrencies.mainnet` from `any-to-erc20-proxy.ts`. -/
def mainnetCurrencies : CURRENCY → List String
  | CURRENCY.ISO4217 => ["AUD", "CAD", "CHF", "EUR", "GBP", "SGD", "USD"]
  | CURRENCY.ERC20 =>
    [ "0x1f573d6fb3f13d689ff844b4ce37794d79a7ff1c",
      "0x3845badade8e6dff049820680d1f14bd3903a5d0",
      "0x4e15361fd6b4bb609fa63c81a2be19d873717870",
      "0x6b175474e89094c44da98b954eedeac495271d0f",
      "0x7fc66500c84a76ad7e9c93437bfc5ac33e2ddae9",
      "0x8290333cef9e6d528dd5618fb97a76f268f3edd4",
      "0x967da4048cd07ab37855c090aaf366e4ce1b9f48",
      "0x9f8f72aa9304c8b593d555f12ef6589cc3a579a2",
      "0xa0b86991c6218b36c1d19d4a2e9eb0ce3606eb48",
      "0xa117000000f279d81a1d3cc75430faa017fa5a2e",
      "0xc944e90c64b2c07662a292be6244bdf05cda44a7",
      "0xdac17f958d2ee523a2206206994597c13d831ec7" ]
  | CURRENCY.ETH => ["ETH"]
  | CURRENCY.BTC => []

/-- The static `supportedCurrencies` record, keyed by network name.  Each
present network maps every `CURRENCY` tag to its allowed value list (the
TypeScript record type `Record<CURRENCY, string[]>` guarantees all four tags
are present, so the inner lookup is total). -/
def supportedCurrencies (network : String) : Option (CURRENCY → List String) :=
  if network = "private" then some privateCurrencies
  else if network = "rinkeby" then some rinkebyCurrencies
  else if network = "mainnet" then some mainnetCurrencies
  else none

/-- `AnyToErc20ProxyPaymentNetwork.checkSupportedCurrency`: throw if a
currency is not supported on `network`.  Non-ISO4217 values are lower-cased
before the lookup; ISO4217 values are compared verbatim. -/
def checkSupportedCurrency (currency : ICurrency) (network : String) :
    Except String Unit :=
  match supportedCurrencies network with
  | none =>
    Except.error
      ("The network (" ++ network ++ ") is not supported for this payment network.")
  | some table =>
    let normalizedCurrencyValue :=
      if currency.type ≠ CURRENCY.ISO4217 then toLowerCase currency.value
      else currency.value
    if normalizedCurrencyValue ∈ table currency.type then Except.ok ()
    else
      Except.error
        ("The currency (" ++ currency.value ++
          ") of the request is not supported for this payment network.")

/-- `ExtensionTypes.PnAnyToErc20.ICreationParameters`, restricted to the
fields `createCreationAction` itself reads (the remaining fields are passed
through untouched to the base class). -/
structure ICreationParameters : Type where
  acceptedTokens : Option (List String)
  network : Option String
deriving DecidableEq, Repr

/-- `AnyToErc20ProxyPaymentNetwork.createCreationAction`.  `isValidAddress`
(inherited from the base address-validation mixin) and the base fee-proxy
`super.createCreationAction` are parameters, exactly where the source calls
`this.isValidAddress` and `super.createCreationAction`. -/
def createCreationAction {A : Type} (isValidAddress : String → Bool)
    (superCreateCreationAction : ICreationParameters → Except String A)
    (creationParameters : ICreationParameters) : Except String A :=
  match creationParameters.acceptedTokens with
  | none => Except.error "acceptedTokens is required"
  | some acceptedTokens =>
    if acceptedTokens.length = 0 then Except.error "acceptedTokens is required"
    else if acceptedTokens.any (fun address => ! isValidAddress address) then
      Except.error "acceptedTokens must contains only valid ethereum addresses"
    else
      match creationParameters.network with
      | none => Except.error "network is required"
      | some network =>
        if network = "" then Except.error "network is required"
        else
          match supportedCurrencies network with
          | none => Except.error ("network " ++ network ++ " not supported")
          | some table =>
            let supportedErc20 := table CURRENCY.ERC20
            match acceptedTokens.find?
                (fun address => ! supportedErc20.contains (toLowerCase address)) with
            | some address =>
              Except.error
                ("acceptedTokens must contain only supported token addresses (ERC20 only). "
                  ++ address ++ " is not supported for " ++ network ++ ".")
            | none => superCreateCreationAction creationParameters

/-- `ExtensionTypes.PnFeeReferenceBased.ACTION.CREATE`. -/
def ACTION_CREATE : String := "create"

/-- `ExtensionTypes.PnFeeReferenceBased.ACTION.ADD_PAYMENT_ADDRESS`. -/
def ACTION_ADD_PAYMENT_ADDRESS : String := "addPaymentAddress"

/-- `ExtensionTypes.PnFeeReferenceBased.ACTION.ADD_REFUND_ADDRESS`. -/
def ACTION_ADD_REFUND_ADDRESS : String := "addRefundAddress"

/-- `ExtensionTypes.PnFeeReferenceBased.ACTION.ADD_FEE`. -/
def ACTION_ADD_FEE : String := "addFee"

/-- The slice of `extensionAction.parameters` the dispatcher itself reads. -/
structure IActionParameters : Type where
  network : Option String
deriving DecidableEq, Repr

/-- `ExtensionTypes.IAction` as seen by `applyActionToExtension`: the action
type tag, the extension id and the declared parameters. -/
structure IExtensionAction : Type where
  action : String
  id : String
  parameters : IActionParameters
deriving DecidableEq, Repr

/-- `RequestLogicTypes.IRequest`, restricted to the fields the dispatcher
reads: the invoicing currency and the per-extension states recorded on the
request.  `S` is the extension-state type (`ExtensionTypes.IState`), kept
abstract because the dispatcher never inspects its fields. -/
structure IRequest (S : Type) : Type where
  currency : ICurrency
  extensions : List (String × S)

/-- `AnyToErc20ProxyPaymentNetwork.applyActionToExtension`.  The four handler
methods (`this.applyCreation`, `ReferenceBased.applyAddPaymentAddress`,
`ReferenceBased.applyAddRefundAddress`, `this.applyAddFee`) are parameters,
exactly where the source dispatches to them; `Utils.deepCopy` of the
extensions state is the identity in this pure embedding. -/
def applyActionToExtension {S : Type}
    (applyCreation : IExtensionAction → Nat → Except String S)
    (applyAddPaymentAddress :
      Option S → IExtensionAction → IRequest S → String → Nat → Except String S)
    (applyAddRefundAddress :
      Option S → IExtensionAction → IRequest S → String → Nat → Except String S)
    (applyAddFee :
      Option S → IExtensionAction → IRequest S → String → Nat → Except String S)
    (extensionsState : List (String × S)) (extensionAction : IExtensionAction)
    (requestState : IRequest S) (actionSigner : String) (timestamp : Nat) :
    Except String (List (String × S)) :=
  match checkSupportedCurrency requestState.currency
      (falsyOr extensionAction.parameters.network DEFAULT_NETWORK) with
  | Except.error e => Except.error e
  | Except.ok _ =>
    let copiedExtensionState := extensionsState
    if extensionAction.action = ACTION_CREATE then
      if (requestState.extensions.lookup extensionAction.id).isSome then
        Except.error "This extension has already been created"
      else
        (applyCreation extensionAction timestamp).map
          (fun s => mapSet copiedExtensionState extensionAction.id s)
    else if (requestState.extensions.lookup extensionAction.id).isNone then
      Except.error "The extension should be created before receiving any other action"
    else if extensionAction.action = ACTION_ADD_PAYMENT_ADDRESS then
      (applyAddPaymentAddress (copiedExtensionState.lookup extensionAction.id)
          extensionAction requestState actionSigner timestamp).map
        (fun s => mapSet copiedExtensionState extensionAction.id s)
    else if extensionAction.action = ACTION_ADD_REFUND_ADDRESS then
      (applyAddRefundAddress (copiedExtensionState.lookup extensionAction.id)
          extensionAction requestState actionSigner timestamp).map
        (fun s => mapSet copiedExtensionState extensionAction.id s)
    else if extensionAction.action = ACTION_ADD_FEE then
      (applyAddFee (copiedExtensionState.lookup extensionAction.id)
          extensionAction requestState actionSigner timestamp).map
        (fun s => mapSet copiedExtensionState extensionAction.id s)
    else
      Except.error ("Unknown action: " ++ extensionAction.action)

end AnyToErc20

namespace AddressBased

/-- `EVENTS_NAMES` of the payment-detection layer: payment or refund. -/
inductive EVENTS_NAMES : Type
  | PAYMENT
  | REFUND
deriving DecidableEq, Repr

/-- `Types.ERC20PaymentNetworkEvent` as consumed by `getBalance`: the event
kind, its amount (a bn.js big integer in the source) and an optional
timestamp. -/
structure ERC20Event : Type where
  name : EVENTS_NAMES
  amount : Int
  timestamp : Option Nat
deriving DecidableEq, Repr

/-- `Types.ERC20BalanceWithEvents`: a balance plus the event list. -/
structure BalanceWithEvents : Type where
  balance : Int
  events : List ERC20Event
deriving DecidableEq, Repr

/-- The slice of `RequestLogicTypes.ICurrency` this module reads: the token
contract value and the optional network. -/
structure ICurrency : Type where
  value : String
  network : Option String
deriving DecidableEq, Repr

/-- The slice of `RequestLogicTypes.IRequest` that `getBalance` reads: the
currency, and the `paymentAddress` / `refundAddress` values of the
`PAYMENT_NETWORK_ERC20_ADDRESS_BASED` extension entry. -/
structure IRequest : Type where
  currency : ICurrency
  paymentAddress : Option String
  refundAddress : Option String
deriving DecidableEq, Repr

/-- `supportedNetworks = ['mainnet', 'rinkeby', 'private']`. -/
def supportedNetworks : List String := ["mainnet", "rinkeby", "private"]

/-- The signature of `new Erc20InfoRetriever(token, address, eventName,
network).getTransferEvents()`, the external ledger query. -/
def RetrieverT : Type := String → String → EVENTS_NAMES → String → List ERC20Event

/-- `PaymentNetworkERC20AddressBased.extractBalanceAndEvents`: retrieve the
transfer events of `address` and fold their amounts into a balance
(bn.js big-integer addition, modelled on `Int`). -/
def extractBalanceAndEvents (retrieve : RetrieverT) (address : String)
    (eventName : EVENTS_NAMES) (network : String) (tokenContractAddress : String) :
    BalanceWithEvents :=
  let events := retrieve tokenContractAddress address eventName network
  let balance := events.foldl (fun acc event => acc + event.amount) 0
  { balance := balance, events := events }

/-- The comparator key of the final sort: `a.timestamp || 0`. -/
def tsKey (e : ERC20Event) : Nat := e.timestamp.getD 0

/-- `PaymentNetworkERC20AddressBased.getBalance`.  The source first mutates
its argument (`request.currency.network = 'mainnet'` when the network is
falsy), so the embedding returns the post-call request next to the result;
the final event list is JS stable `sort` by ascending `timestamp || 0`,
modelled by the stable `List.mergeSort`. -/
def getBalance (retrieve : RetrieverT) (request0 : IRequest) :
    Except String BalanceWithEvents × IRequest :=
  let request :=
    if isFalsyStr request0.currency.network then
      { request0 with currency := { request0.currency with network := some "mainnet" } }
    else request0
  let network := request.currency.network.getD "mainnet"
  if ¬ supportedNetworks.contains network then
    (Except.error
      ("Payment network " ++ network ++
        " not supported by ERC20 payment detection. Supported networks: " ++
        String.intercalate ", " supportedNetworks), request)
  else
    let payments :=
      if isFalsyStr request.paymentAddress then
        { balance := 0, events := [] }
      else
        extractBalanceAndEvents retrieve (request.paymentAddress.getD "")
          EVENTS_NAMES.PAYMENT network request.currency.value
    let refunds :=
      if isFalsyStr request.refundAddress then
        { balance := 0, events := [] }
      else
        extractBalanceAndEvents retrieve (request.refundAddress.getD "")
          EVENTS_NAMES.REFUND network request.currency.value
    let balance := payments.balance - refunds.balance
    let events :=
      (payments.events ++ refunds.events).mergeSort
        (fun a b => tsKey a ≤ tsKey b)
    (Except.ok { balance := balance, events := events }, request)

end AddressBased

namespace ChainlinkTools

/-- The parsed arguments of an `AggregatorUpdated(_input, _output,
_aggregator)` log of the conversion-path registry contract. -/
structure AggregatorUpdatedArgs : Type where
  input : String
  output : String
  aggregator : String
deriving DecidableEq, Repr

/-- The zero address, which marks an aggregator edge as deleted. -/
def zeroAddress : String := "0x0000000000000000000000000000000000000000"

/-- The accumulator of the rebuild fold: input currency, to output currency,
to aggregator address — an insertion-ordered JS `Map` of `Map`s. -/
abbrev AggregatorMap : Type := List (String × List (String × String))

/-- One step of the `logs.reduce` fold in
`ChainlinkConversionPathTools.getAggregators`: a zero-address aggregator
deletes the `(input, output)` edge and prunes `input` once its inner map is
empty; any other aggregator upserts the edge. -/
def applyAggregatorUpdated (aggregators : AggregatorMap)
    (args : AggregatorUpdatedArgs) : AggregatorMap :=
  if args.aggregator = zeroAddress then
    let pruned :=
      aggregators.map
        (fun p => if p.1 = args.input then (p.1, mapDelete p.2 args.output) else p)
    if pruned.lookup args.input = some [] then mapDelete pruned args.input
    else pruned
  else
    match aggregators.lookup args.input with
    | none => aggregators ++ [(args.input, [(args.output, args.aggregator)])]
    | some inner =>
      mapSet aggregators args.input (mapSet inner args.output args.aggregator)

/-- The full rebuild fold of `getAggregators`, over the ordered
`AggregatorUpdated` event stream (the surrounding log retrieval and the
final lower-cased object conversion are I/O plumbing around this fold). -/
def getAggregators (events : List AggregatorUpdatedArgs) : AggregatorMap :=
  events.foldl applyAggregatorUpdated []

/-- Edge lookup in the rebuilt map. -/
def lookupAggregator (m : AggregatorMap) (input output : String) :
    Option String :=
  (m.lookup input).bind (fun inner => inner.lookup output)

end ChainlinkTools

namespace ConversionProxy

/-- OpenZeppelin `SafeMath.sub` on `uint256`: reverts on underflow. -/
def safeSub (a b : Nat) : Except String Nat :=
  if b ≤ a then Except.ok (a - b)
  else Except.error "SafeMath: subtraction overflow"

/-- OpenZeppelin `SafeMath.mul` on `uint256`: reverts on overflow. -/
def safeMul (a b : Nat) : Except String Nat :=
  if a * b < 2 ^ 256 then Except.ok (a * b)
  else Except.error "SafeMath: multiplication overflow"

/-- OpenZeppelin `SafeMath.div` on `uint256`: reverts on division by zero. -/
def safeDiv (a b : Nat) : Except String Nat :=
  if b = 0 then Except.error "SafeMath: division by zero"
  else Except.ok (a / b)

/-- `ProxyChainlinkConversionPath.maxTimestampDeltaAcceptable = 600`. -/
def maxTimestampDeltaAcceptable : Nat := 600

/-- `ProxyChainlinkConversionPath.getConversions`.  The triple
`(rate, oldestTimestampRate, decimals)` returned by the external
`chainlinkConversionPath.getRate(_path)` call is passed in, together with the
current `block.timestamp`; the freshness `require` and the SafeMath
arithmetic follow the Solidity source. -/
def getConversions (blockTimestamp rate oldestTimestampRate decimals
    requestAmount feesRequestAmount : Nat) : Except String (Nat × Nat) := do
  let delta ← safeSub blockTimestamp oldestTimestampRate
  if delta ≤ maxTimestampDeltaAcceptable then
    let p1 ← safeMul requestAmount rate
    let amountToPay ← safeDiv p1 decimals
    let p2 ← safeMul feesRequestAmount rate
    let amountToPayInFees ← safeDiv p2 decimals
    Except.ok (amountToPay, amountToPayInFees)
  else
    Except.error "aggregator rate is outdated"

end ConversionProxy

/-! ## Helper lemmas about the JS `Map` / object model -/

theorem lookup_cons_eq_ite {β : Type} (a : String) (b : β)
    (t : List (String × β)) (j : String) :
    ((a, b) :: t).lookup j = if j = a then some b else t.lookup j := by
  rw [List.lookup_cons]
  by_cases h : j = a
  · simp [h]
  · simp [h, beq_eq_false_iff_ne.mpr h]

theorem lookup_eq_none_of_any_eq_false {β : Type} (m : List (String × β))
    (k : String) (h : m.any (fun p => p.1 = k) = false) :
    m.lookup k = none := by
  induction m with
  | nil => rfl
  | cons p t ih =>
    obtain ⟨a, b⟩ := p
    simp only [List.any_cons, Bool.or_eq_false_iff, decide_eq_false_iff_not] at h
    obtain ⟨h1, h2⟩ := h
    rw [lookup_cons_eq_ite, if_neg (fun hk => h1 hk.symm)]
    exact ih h2

theorem lookup_isSome_of_any_eq_true {β : Type} (m : List (String × β))
    (k : String) (h : m.any (fun p => p.1 = k) = true) :
    (m.lookup k).isSome = true := by
  induction m with
  | nil => simp at h
  | cons p t ih =>
    obtain ⟨a, b⟩ := p
    simp only [List.any_cons, Bool.or_eq_true, decide_eq_true_eq] at h
    rw [lookup_cons_eq_ite]
    by_cases hk : k = a
    · simp [hk]
    · rw [if_neg hk]
      rcases h with h | h
      · exact absurd h.symm hk
      · exact ih (by simpa using h)

theorem lookup_map_replace {β : Type} (m : List (String × β)) (k j : String)
    (f : β → β) :
    (m.map (fun p => if p.1 = k then (p.1, f p.2) else p)).lookup j =
      if j = k then (m.lookup k).map f else m.lookup j := by
  induction m with
  | nil => simp [List.lookup]
  | cons p t ih =>
    obtain ⟨a, b⟩ := p
    by_cases hak : a = k
    · subst hak
      by_cases hj : j = a
      · simp [lookup_cons_eq_ite, ih, hj]
      · simp [lookup_cons_eq_ite, ih, hj]
    · by_cases hj : j = a
      · have hjk : ¬ j = k := by
          intro h
          exact hak (hj ▸ h)
        simp [lookup_cons_eq_ite, ih, hj, hjk, hak]
      · by_cases hjk : j = k
        · subst hjk
          simp [lookup_cons_eq_ite, ih, hj, hak]
        · simp [lookup_cons_eq_ite, ih, hj, hjk, hak]

theorem lookup_map_replace_const {β : Type} (m : List (String × β))
    (k j : String) (v : β) :
    (m.map (fun p => if p.1 = k then (k, v) else p)).lookup j =
      if j = k then (m.lookup k).map (fun _ => v) else m.lookup j := by
  have hfun :
      (fun p : String × β => if p.1 = k then (k, v) else p) =
        (fun p : String × β => if p.1 = k then (p.1, (fun _ => v) p.2) else p) := by
    funext p
    by_cases h : p.1 = k
    · simp [h]
    · simp [h]
  rw [hfun]
  exact lookup_map_replace m k j (fun _ => v)

theorem lookup_mapDelete {β : Type} (m : List (String × β)) (k j : String) :
    (mapDelete m k).lookup j = if j = k then none else m.lookup j := by
  induction m with
  | nil => simp [mapDelete, List.lookup]
  | cons p t ih =>
    obtain ⟨a, b⟩ := p
    unfold mapDelete at ih ⊢
    rw [List.filter_cons]
    by_cases hak : a = k
    · subst hak
      have hbne : ((a, b).1 != a) = false := by simp
      rw [hbne]
      simp only [Bool.false_eq_true, if_neg (by simp : ¬ False)]
      rw [ih, lookup_cons_eq_ite]
      by_cases hj : j = a
      · simp [hj]
      · simp [hj]
    · have hbne : ((a, b).1 != k) = true := by simpa using hak
      rw [hbne, if_pos rfl]
      rw [lookup_cons_eq_ite, lookup_cons_eq_ite, ih]
      by_cases hj : j = a
      · subst hj
        simp [if_neg hak, hak]
      · simp only [if_neg hj]

theorem lookup_append_str {β : Type} (l₁ l₂ : List (String × β)) (k : String) :
    (l₁ ++ l₂).lookup k = ((l₁.lookup k).or (l₂.lookup k)) := by
  induction l₁ with
  | nil => simp [List.lookup]
  | cons p t ih =>
    obtain ⟨a, b⟩ := p
    rw [List.cons_append, lookup_cons_eq_ite, lookup_cons_eq_ite, ih]
    by_cases hk : k = a
    · simp [hk]
    · simp [hk]

theorem lookup_mapSet {β : Type} (m : List (String × β)) (k : String) (v : β)
    (j : String) :
    (mapSet m k v).lookup j = if j = k then some v else m.lookup j := by
  unfold mapSet
  by_cases hany : m.any (fun p => p.1 = k) = true
  · rw [if_pos hany, lookup_map_replace_const]
    by_cases hj : j = k
    · subst hj
      obtain ⟨w, hw⟩ :=
        Option.isSome_iff_exists.mp (lookup_isSome_of_any_eq_true m j hany)
      simp [hw]
    · simp [hj]
  · have hfalse : m.any (fun p => p.1 = k) = false := by
      cases hcase : m.any (fun p => p.1 = k)
      · rfl
      · exact absurd hcase hany
    rw [if_neg hany, lookup_append_str]
    have hnone := lookup_eq_none_of_any_eq_false m k hfalse
    by_cases hj : j = k
    · subst hj
      rw [hnone, lookup_cons_eq_ite]
      simp
    · by_cases hcase : m.lookup j = none
      · rw [hcase, lookup_cons_eq_ite, if_neg hj]
        simp [hj]
      · obtain ⟨w, hw⟩ := Option.ne_none_iff_exists'.mp hcase
        simp [hw, hj]

/-! ## Claims about `AnyToErc20ProxyPaymentNetwork` -/

namespace AnyToErc20

/-- Claim C10 (counterexample): the currency value `ETH` of type `ETH` on
`mainnet` is listed verbatim in the supported-currency table, yet
`checkSupportedCurrency` rejects it, because the value is lower-cased to
`eth` before being compared with the table's upper-case `ETH` entry — so ETH
values are *not* matched case-insensitively against the table. -/
theorem checkSupportedCurrency_eth_exact_entry_rejected :
    "ETH" ∈ mainnetCurrencies CURRENCY.ETH ∧
    checkSupportedCurrency ⟨CURRENCY.ETH, "ETH"⟩ "mainnet" =
      Except.error
        "The currency (ETH) of the request is not supported for this payment network." := by
  constructor
  · decide
  · rfl

/-- Claim C10 (amended): `checkSupportedCurrency` lower-cases the currency
value before the supported-list lookup iff the currency type is not ISO4217:
for every supported network, a non-ISO4217 currency passes iff its
*lower-cased* value is verbatim in the table (hence ERC20 values are matched
case-insensitively against the all-lower-case ERC20 entries, while ETH
values are compared lower-cased against the table's upper-case `ETH` entry
and therefore rejected), and an ISO4217 code passes iff it matches the
table's upper-case entry exactly. -/
theorem checkSupportedCurrency_case_normalization
    (c : ICurrency) (n : String) (table : CURRENCY → List String)
    (h : supportedCurrencies n = some table) :
    (c.type ≠ CURRENCY.ISO4217 →
      (checkSupportedCurrency c n = Except.ok () ↔
        toLowerCase c.value ∈ table c.type)) ∧
    (c.type = CURRENCY.ISO4217 →
      (checkSupportedCurrency c n = Except.ok () ↔
        c.value ∈ table CURRENCY.ISO4217)) := by
  constructor
  · intro ht
    simp only [checkSupportedCurrency, h, ht, if_pos, ne_eq, not_false_iff, if_true]
    by_cases hm : toLowerCase c.value ∈ table c.type
    · simp [hm]
    · simp [hm]
  · intro ht
    simp only [checkSupportedCurrency, h, ht, ne_eq, not_true, if_false]
    by_cases hm : c.value ∈ table CURRENCY.ISO4217
    · simp [hm]
    · simp [hm]

/-- Claim C10 witness: instantiation at ISO4217 `usd` / `USD` on mainnet:
the exact-match characterization applies, `usd` is rejected and `USD`
accepted. -/
theorem checkSupportedCurrency_case_normalization_witness :
    supportedCurrencies "mainnet" = some mainnetCurrencies ∧
    (checkSupportedCurrency ⟨CURRENCY.ISO4217, "usd"⟩ "mainnet" = Except.ok () ↔
      "usd" ∈ mainnetCurrencies CURRENCY.ISO4217) ∧
    checkSupportedCurrency ⟨CURRENCY.ISO4217, "usd"⟩ "mainnet" ≠ Except.ok () ∧
    checkSupportedCurrency ⟨CURRENCY.ISO4217, "USD"⟩ "mainnet" = Except.ok () :=
  ⟨rfl,
    (checkSupportedCurrency_case_normalization ⟨CURRENCY.ISO4217, "usd"⟩
      "mainnet" mainnetCurrencies rfl).2 rfl,
    fun hok =>
      absurd
        (((checkSupportedCurrency_case_normalization ⟨CURRENCY.ISO4217, "usd"⟩
          "mainnet" mainnetCurrencies rfl).2 rfl).mp hok)
        (by decide),
    ((checkSupportedCurrency_case_normalization ⟨CURRENCY.ISO4217, "USD"⟩
      "mainnet" mainnetCurrencies rfl).2 rfl).mpr (by decide)⟩

/-- Claim C4: on every action, of every action type, `applyActionToExtension`
validates the request's invoicing currency against the supported-currency
table for the action's declared network (defaulting to `mainnet` via the
falsy-or), and propagates exactly the currency-check error before any
dispatch or state change — for every choice of the four dispatched handlers
and of the extension states. -/
theorem applyActionToExtension_currency_check_first {S : Type}
    (applyCreation : IExtensionAction → Nat → Except String S)
    (applyAddPaymentAddress applyAddRefundAddress applyAddFee :
      Option S → IExtensionAction → IRequest S → String → Nat → Except String S)
    (extensionsState : List (String × S)) (extensionAction : IExtensionAction)
    (requestState : IRequest S) (actionSigner : String) (timestamp : Nat)
    (e : String)
    (hcur : checkSupportedCurrency requestState.currency
      (falsyOr extensionAction.parameters.network DEFAULT_NETWORK) =
        Except.error e) :
    applyActionToExtension applyCreation applyAddPaymentAddress
      applyAddRefundAddress applyAddFee extensionsState extensionAction
      requestState actionSigner timestamp = Except.error e := by
  unfold applyActionToExtension
  rw [hcur]

/-- Claim C4 witness: a request invoiced in an ISO4217 currency absent from
the rinkeby table is rejected with the currency-check error by every action,
here a `create` action declaring `network = rinkeby`. -/
theorem applyActionToExtension_currency_check_first_witness :
    checkSupportedCurrency (ICurrency.mk CURRENCY.ISO4217 "CHF")
      (falsyOr (some "rinkeby") DEFAULT_NETWORK) =
      Except.error
        "The currency (CHF) of the request is not supported for this payment network." ∧
    applyActionToExtension (fun _ _ => Except.ok 0) (fun _ _ _ _ _ => Except.ok 0)
      (fun _ _ _ _ _ => Except.ok 0) (fun _ _ _ _ _ => Except.ok 0)
      [] ⟨"create", "pn-any-to-erc20", ⟨some "rinkeby"⟩⟩
      ⟨⟨CURRENCY.ISO4217, "CHF"⟩, []⟩ "signer" 0 =
      Except.error
        "The currency (CHF) of the request is not supported for this payment network." :=
  ⟨rfl,
    applyActionToExtension_currency_check_first (fun _ _ => Except.ok 0)
      (fun _ _ _ _ _ => Except.ok 0) (fun _ _ _ _ _ => Except.ok 0)
      (fun _ _ _ _ _ => Except.ok 0) []
      ⟨"create", "pn-any-to-erc20", ⟨some "rinkeby"⟩⟩
      ⟨⟨CURRENCY.ISO4217, "CHF"⟩, []⟩ "signer" 0 _ rfl⟩

/-- Claim C1: once the currency check passes, `applyActionToExtension`
dispatches in order: a `create` action fails with the already-created error
when the request already records an extension state for the action's id;
every non-`create` action fails with the must-be-created-first error when no
extension state is recorded; and an action whose type is none of
`create` / `addPaymentAddress` / `addRefundAddress` / `addFee` fails with
the unknown-action error (the not-created check having been passed). -/
theorem applyActionToExtension_dispatch_errors {S : Type}
    (applyCreation : IExtensionAction → Nat → Except String S)
    (applyAddPaymentAddress applyAddRefundAddress applyAddFee :
      Option S → IExtensionAction → IRequest S → String → Nat → Except String S)
    (extensionsState : List (String × S)) (extensionAction : IExtensionAction)
    (requestState : IRequest S) (actionSigner : String) (timestamp : Nat)
    (hcur : checkSupportedCurrency requestState.currency
      (falsyOr extensionAction.parameters.network DEFAULT_NETWORK) =
        Except.ok ()) :
    (extensionAction.action = ACTION_CREATE →
      (requestState.extensions.lookup extensionAction.id).isSome = true →
      applyActionToExtension applyCreation applyAddPaymentAddress
        applyAddRefundAddress applyAddFee extensionsState extensionAction
        requestState actionSigner timestamp =
        Except.error "This extension has already been created") ∧
    (extensionAction.action ≠ ACTION_CREATE →
      requestState.extensions.lookup extensionAction.id = none →
      applyActionToExtension applyCreation applyAddPaymentAddress
        applyAddRefundAddress applyAddFee extensionsState extensionAction
        requestState actionSigner timestamp =
        Except.error "The extension should be created before receiving any other action") ∧
    (extensionAction.action ≠ ACTION_CREATE →
      extensionAction.action ≠ ACTION_ADD_PAYMENT_ADDRESS →
      extensionAction.action ≠ ACTION_ADD_REFUND_ADDRESS →
      extensionAction.action ≠ ACTION_ADD_FEE →
      (requestState.extensions.lookup extensionAction.id).isSome = true →
      applyActionToExtension applyCreation applyAddPaymentAddress
        applyAddRefundAddress applyAddFee extensionsState extensionAction
        requestState actionSigner timestamp =
        Except.error ("Unknown action: " ++ extensionAction.action)) := by
  refine ⟨?_, ?_, ?_⟩
  · intro hact hsome
    unfold applyActionToExtension
    rw [hcur]
    simp [hact, hsome]
  · intro hact hnone
    unfold applyActionToExtension
    rw [hcur]
    simp [hact, hnone]
  · intro hact hpay href hfee hsome
    unfold applyActionToExtension
    rw [hcur]
    have hnone : (requestState.extensions.lookup extensionAction.id).isNone = false := by
      simp [Option.isNone_eq_false_iff, ← Option.isSome_iff_ne_none, hsome]
    simp [hact, hpay, href, hfee, hnone, hsome]

/-- Claim C1 witness: with a USD-invoiced mainnet request whose extensions
already record the id, a `create` action is rejected as already created. -/
theorem applyActionToExtension_dispatch_errors_witness :
    checkSupportedCurrency (ICurrency.mk CURRENCY.ISO4217 "USD")
      (falsyOr none DEFAULT_NETWORK) = Except.ok () ∧
    (("create" : String) = ACTION_CREATE) ∧
    ((List.lookup "pn-any-to-erc20" [("pn-any-to-erc20", 7)]).isSome = true) ∧
    applyActionToExtension (fun _ _ => Except.ok 7) (fun _ _ _ _ _ => Except.ok 7)
      (fun _ _ _ _ _ => Except.ok 7) (fun _ _ _ _ _ => Except.ok 7)
      [] ⟨"create", "pn-any-to-erc20", ⟨none⟩⟩
      ⟨⟨CURRENCY.ISO4217, "USD"⟩, [("pn-any-to-erc20", 7)]⟩ "signer" 3 =
      Except.error "This extension has already been created" :=
  ⟨rfl, rfl, rfl,
    (applyActionToExtension_dispatch_errors (fun _ _ => Except.ok 7)
      (fun _ _ _ _ _ => Except.ok 7) (fun _ _ _ _ _ => Except.ok 7)
      (fun _ _ _ _ _ => Except.ok 7) []
      ⟨"create", "pn-any-to-erc20", ⟨none⟩⟩
      ⟨⟨CURRENCY.ISO4217, "USD"⟩, [("pn-any-to-erc20", 7)]⟩ "signer" 3 rfl).1
      rfl rfl⟩

end AnyToErc20

namespace AnyToErc20

/-- Claim C9: `applyActionToExtension` decides extension existence from
`requestState.extensions`, not from the `extensionsState` argument it copies
and returns: when `extensionsState` holds an entry for the action's id but
the request does not, a `create` action succeeds (for a succeeding creation
handler) and overwrites that entry in the returned copy; and when the
request holds the id but `extensionsState` does not, an
`addPaymentAddress` action is dispatched against the `none` extension state
instead of failing the creation-before-use check. -/
theorem applyActionToExtension_existence_from_requestState {S : Type}
    (applyCreation : IExtensionAction → Nat → Except String S)
    (applyAddPaymentAddress applyAddRefundAddress applyAddFee :
      Option S → IExtensionAction → IRequest S → String → Nat → Except String S)
    (extensionsState : List (String × S)) (extensionAction : IExtensionAction)
    (requestState : IRequest S) (actionSigner : String) (timestamp : Nat)
    (hcur : checkSupportedCurrency requestState.currency
      (falsyOr extensionAction.parameters.network DEFAULT_NETWORK) =
        Except.ok ()) :
    (extensionAction.action = ACTION_CREATE →
      requestState.extensions.lookup extensionAction.id = none →
      (extensionsState.lookup extensionAction.id).isSome = true →
      applyActionToExtension applyCreation applyAddPaymentAddress
        applyAddRefundAddress applyAddFee extensionsState extensionAction
        requestState actionSigner timestamp =
        (applyCreation extensionAction timestamp).map
          (fun s => mapSet extensionsState extensionAction.id s) ∧
      ∀ v, applyCreation extensionAction timestamp = Except.ok v →
        applyActionToExtension applyCreation applyAddPaymentAddress
          applyAddRefundAddress applyAddFee extensionsState extensionAction
          requestState actionSigner timestamp =
          Except.ok (mapSet extensionsState extensionAction.id v) ∧
        (mapSet extensionsState extensionAction.id v).lookup extensionAction.id =
          some v) ∧
    (extensionAction.action = ACTION_ADD_PAYMENT_ADDRESS →
      (requestState.extensions.lookup extensionAction.id).isSome = true →
      extensionsState.lookup extensionAction.id = none →
      applyActionToExtension applyCreation applyAddPaymentAddress
        applyAddRefundAddress applyAddFee extensionsState extensionAction
        requestState actionSigner timestamp =
        (applyAddPaymentAddress none extensionAction requestState actionSigner
          timestamp).map
          (fun s => mapSet extensionsState extensionAction.id s)) := by
  constructor
  · intro hact hreqnone _
    have heq :
        applyActionToExtension applyCreation applyAddPaymentAddress
          applyAddRefundAddress applyAddFee extensionsState extensionAction
          requestState actionSigner timestamp =
          (applyCreation extensionAction timestamp).map
            (fun s => mapSet extensionsState extensionAction.id s) := by
      unfold applyActionToExtension
      rw [hcur]
      simp [hact, hreqnone]
    refine ⟨heq, ?_⟩
    intro v hv
    rw [heq, hv]
    exact ⟨rfl, lookup_mapSet extensionsState extensionAction.id v extensionAction.id ▸ by simp⟩
  · intro hact hreqsome hesnone
    have hne : extensionAction.action ≠ ACTION_CREATE := by
      rw [hact]
      decide
    have hisnone :
        (requestState.extensions.lookup extensionAction.id).isNone = false := by
      rcases Option.isSome_iff_exists.mp hreqsome with ⟨w, hw⟩
      simp [hw]
    unfold applyActionToExtension
    rw [hcur]
    have hconst : ACTION_ADD_PAYMENT_ADDRESS ≠ ACTION_CREATE := by decide
    simp [hne, hact, hisnone, hesnone, hconst]

/-- Claim C9 witness: with the id recorded only in `extensionsState`, a
`create` action overwrites that stale entry; the hypotheses are discharged
at a concrete USD-mainnet request. -/
theorem applyActionToExtension_existence_witness :
    checkSupportedCurrency (ICurrency.mk CURRENCY.ISO4217 "USD")
      (falsyOr none DEFAULT_NETWORK) = Except.ok () ∧
    (("create" : String) = ACTION_CREATE) ∧
    (List.lookup "pn-any-to-erc20" ([] : List (String × Nat)) = none) ∧
    ((List.lookup "pn-any-to-erc20" [("pn-any-to-erc20", 5)]).isSome = true) ∧
    applyActionToExtension (fun _ _ => Except.ok 9) (fun _ _ _ _ _ => Except.ok 9)
      (fun _ _ _ _ _ => Except.ok 9) (fun _ _ _ _ _ => Except.ok 9)
      [("pn-any-to-erc20", 5)] ⟨"create", "pn-any-to-erc20", ⟨none⟩⟩
      ⟨⟨CURRENCY.ISO4217, "USD"⟩, []⟩ "signer" 2 =
      Except.ok (mapSet [("pn-any-to-erc20", 5)] "pn-any-to-erc20" 9) ∧
    (mapSet [("pn-any-to-erc20", 5)] "pn-any-to-erc20" 9).lookup
      "pn-any-to-erc20" = some 9 := by
  refine ⟨rfl, rfl, rfl, rfl, ?_, ?_⟩
  · exact (((applyActionToExtension_existence_from_requestState
      (fun _ _ => Except.ok 9) (fun _ _ _ _ _ => Except.ok 9)
      (fun _ _ _ _ _ => Except.ok 9) (fun _ _ _ _ _ => Except.ok 9)
      [("pn-any-to-erc20", 5)] ⟨"create", "pn-any-to-erc20", ⟨none⟩⟩
      ⟨⟨CURRENCY.ISO4217, "USD"⟩, []⟩ "signer" 2 rfl).1 rfl rfl rfl).2
      9 rfl).1
  · exact (((applyActionToExtension_existence_from_requestState
      (fun _ _ => Except.ok 9) (fun _ _ _ _ _ => Except.ok 9)
      (fun _ _ _ _ _ => Except.ok 9) (fun _ _ _ _ _ => Except.ok 9)
      [("pn-any-to-erc20", 5)] ⟨"create", "pn-any-to-erc20", ⟨none⟩⟩
      ⟨⟨CURRENCY.ISO4217, "USD"⟩, []⟩ "signer" 2 rfl).1 rfl rfl rfl).2
      9 rfl).2

end AnyToErc20

namespace AnyToErc20

/-- Claim C3: `createCreationAction` rejects a missing or empty
`acceptedTokens` list, rejects any syntactically invalid token address,
rejects a missing network with `network is required`, rejects a network
absent from the supported-currency table with a descriptive error, rejects
the first `acceptedTokens` entry whose lower-cased form is absent from the
network's supported-ERC20 list with an error naming that address and the
network, and otherwise defers to the base fee-proxy
`createCreationAction` — for every address validator and base handler. -/
theorem createCreationAction_validation {A : Type}
    (isValidAddress : String → Bool)
    (superCreateCreationAction : ICreationParameters → Except String A)
    (p : ICreationParameters) :
    ((p.acceptedTokens = none ∨ p.acceptedTokens = some [] →
      createCreationAction isValidAddress superCreateCreationAction p =
        Except.error "acceptedTokens is required")) ∧
    (∀ toks, p.acceptedTokens = some toks → toks ≠ [] →
      toks.any (fun address => ! isValidAddress address) = true →
      createCreationAction isValidAddress superCreateCreationAction p =
        Except.error "acceptedTokens must contains only valid ethereum addresses") ∧
    (∀ toks, p.acceptedTokens = some toks → toks ≠ [] →
      toks.all isValidAddress = true →
      (p.network = none ∨ p.network = some "") →
      createCreationAction isValidAddress superCreateCreationAction p =
        Except.error "network is required") ∧
    (∀ toks n, p.acceptedTokens = some toks → toks ≠ [] →
      toks.all isValidAddress = true →
      p.network = some n → n ≠ "" → supportedCurrencies n = none →
      createCreationAction isValidAddress superCreateCreationAction p =
        Except.error ("network " ++ n ++ " not supported")) ∧
    (∀ toks n table addr, p.acceptedTokens = some toks → toks ≠ [] →
      toks.all isValidAddress = true →
      p.network = some n → n ≠ "" → supportedCurrencies n = some table →
      toks.find?
        (fun address => ! (table CURRENCY.ERC20).contains (toLowerCase address)) =
          some addr →
      createCreationAction isValidAddress superCreateCreationAction p =
        Except.error
          ("acceptedTokens must contain only supported token addresses (ERC20 only). "
            ++ addr ++ " is not supported for " ++ n ++ ".")) ∧
    (∀ toks n table, p.acceptedTokens = some toks → toks ≠ [] →
      toks.all isValidAddress = true →
      p.network = some n → n ≠ "" → supportedCurrencies n = some table →
      toks.find?
        (fun address => ! (table CURRENCY.ERC20).contains (toLowerCase address)) =
          none →
      createCreationAction isValidAddress superCreateCreationAction p =
        superCreateCreationAction p) := by
  have hlen : ∀ toks : List String, toks ≠ [] → ¬ (toks.length = 0) := by
    intro toks h
    simpa [List.length_eq_zero] using h
  have hanyf : ∀ toks : List String, toks.all isValidAddress = true →
      toks.any (fun address => ! isValidAddress address) = false := by
    intro toks h
    rw [List.any_eq_false]
    intro x hx
    simp only [List.all_eq_true] at h
    simp [h x hx]
  refine ⟨?_, ?_, ?_, ?_, ?_, ?_⟩
  · rintro (h | h)
    · simp [createCreationAction, h]
    · simp [createCreationAction, h]
  · intro toks ht htne hany
    simp [createCreationAction, ht, hlen toks htne, hany]
  · rintro toks ht htne hvalid (hn | hn)
    · simp [createCreationAction, ht, hlen toks htne, hanyf toks hvalid, hn]
    · simp [createCreationAction, ht, hlen toks htne, hanyf toks hvalid, hn]
  · intro toks n ht htne hvalid hn hne hsc
    simp [createCreationAction, ht, hlen toks htne, hanyf toks hvalid, hn, hne, hsc]
  · intro toks n table addr ht htne hvalid hn hne hsc hfind
    have hfind' :
        toks.find?
          (fun address => ! decide (toLowerCase address ∈ table CURRENCY.ERC20)) =
          some addr := by
      simpa using hfind
    simp [createCreationAction, ht, hlen toks htne, hanyf toks hvalid, hn, hne,
      hsc, hfind']
  · intro toks n table ht htne hvalid hn hne hsc hfind
    have hfind' :
        toks.find?
          (fun address => ! decide (toLowerCase address ∈ table CURRENCY.ERC20)) =
          none := by
      simpa using hfind
    simp [createCreationAction, ht, hlen toks htne, hanyf toks hvalid, hn, hne,
      hsc, hfind']

/-- Claim C3 witness: a creation with the one supported private-network
token and `network = private` passes every check and defers to the base
handler. -/
theorem createCreationAction_validation_witness :
    (ICreationParameters.mk
      (some ["0x38cf23c52bb4b13f051aec09580a2de845a7fa35"]) (some "private")).acceptedTokens =
      some ["0x38cf23c52bb4b13f051aec09580a2de845a7fa35"] ∧
    (["0x38cf23c52bb4b13f051aec09580a2de845a7fa35"] : List String) ≠ [] ∧
    (["0x38cf23c52bb4b13f051aec09580a2de845a7fa35"].all
      (fun s => decide (s.length = 42)) = true) ∧
    ("private" : String) ≠ "" ∧
    supportedCurrencies "private" = some privateCurrencies ∧
    (["0x38cf23c52bb4b13f051aec09580a2de845a7fa35"].find?
      (fun address =>
        ! (privateCurrencies CURRENCY.ERC20).contains (toLowerCase address)) =
      none) ∧
    createCreationAction (fun s => decide (s.length = 42))
      (fun _ => Except.ok (37 : Nat))
      ⟨some ["0x38cf23c52bb4b13f051aec09580a2de845a7fa35"], some "private"⟩ =
      Except.ok 37 :=
  ⟨rfl, by decide, by decide, by decide, rfl, by decide,
    (createCreationAction_validation (fun s => decide (s.length = 42))
      (fun _ => Except.ok (37 : Nat))
      ⟨some ["0x38cf23c52bb4b13f051aec09580a2de845a7fa35"], some "private"⟩).2.2.2.2.2
      ["0x38cf23c52bb4b13f051aec09580a2de845a7fa35"] "private" privateCurrencies
      rfl (by decide) (by decide) rfl (by decide) rfl (by decide)⟩

end AnyToErc20

/-! ## Claims about `ProxyChainlinkConversionPath.getConversions` -/

namespace ConversionProxy

/-- Claim C6: with a rate timestamp not in the future, `getConversions`
reverts with `aggregator rate is outdated` exactly when the path's oldest
rate timestamp is more than `maxTimestampDeltaAcceptable` (600) seconds
older than the current block timestamp, and never produces that error when
the difference is at most 600 seconds. -/
theorem getConversions_freshness (blockTimestamp rate oldestTimestampRate
    decimals requestAmount feesRequestAmount : Nat)
    (hpast : oldestTimestampRate ≤ blockTimestamp) :
    (maxTimestampDeltaAcceptable < blockTimestamp - oldestTimestampRate →
      getConversions blockTimestamp rate oldestTimestampRate decimals
        requestAmount feesRequestAmount =
        Except.error "aggregator rate is outdated") ∧
    (blockTimestamp - oldestTimestampRate ≤ maxTimestampDeltaAcceptable →
      getConversions blockTimestamp rate oldestTimestampRate decimals
        requestAmount feesRequestAmount ≠
        Except.error "aggregator rate is outdated") := by
  constructor
  · intro hold
    unfold getConversions safeSub
    rw [if_pos hpast]
    simp only [Except.bind, bind]
    rw [if_neg (by omega)]
  · intro hfresh
    unfold getConversions safeSub
    rw [if_pos hpast]
    simp only [Except.bind, bind]
    rw [if_pos hfresh]
    unfold safeMul safeDiv
    by_cases h1 : requestAmount * rate < 2 ^ 256
    · rw [if_pos h1]
      simp only [Except.bind, bind]
      by_cases h2 : decimals = 0
      · rw [if_pos h2]
        intro h
        exact absurd (Except.error.inj h) (by decide)
      · rw [if_neg h2]
        simp only [Except.bind, bind]
        by_cases h3 : feesRequestAmount * rate < 2 ^ 256
        · rw [if_pos h3]
          simp only [Except.bind, bind]
          rw [if_neg h2]
          intro h
          exact Except.noConfusion h
        · rw [if_neg h3]
          intro h
          exact absurd (Except.error.inj h) (by decide)
    · rw [if_neg h1]
      intro h
      exact absurd (Except.error.inj h) (by decide)

/-- Claim C6 witness: at `block.timestamp = 1000`, a rate 601 seconds old
(timestamp 399) reverts as outdated while a rate 599 seconds old
(timestamp 401) passes the freshness gate and completes the conversion. -/
theorem getConversions_freshness_witness :
    (399 ≤ 1000 ∧ maxTimestampDeltaAcceptable < 1000 - 399 ∧
      getConversions 1000 2 399 1 10 0 =
        Except.error "aggregator rate is outdated") ∧
    (401 ≤ 1000 ∧ 1000 - 401 ≤ maxTimestampDeltaAcceptable ∧
      getConversions 1000 2 401 1 10 0 ≠
        Except.error "aggregator rate is outdated" ∧
      getConversions 1000 2 401 1 10 0 = Except.ok (20, 0)) :=
  ⟨⟨by decide, by decide,
    (getConversions_freshness 1000 2 399 1 10 0 (by decide)).1 (by decide)⟩,
   ⟨by decide, by decide,
    (getConversions_freshness 1000 2 401 1 10 0 (by decide)).2 (by decide),
    rfl⟩⟩

end ConversionProxy

/-! ## Claims about the aggregator-map rebuild fold -/

namespace ChainlinkTools

/-- Lookup characterization of a zero-address `AggregatorUpdated` step: the
`(input, output)` edge is removed and every other edge is untouched. -/
theorem lookup_applyAggregatorUpdated_zero (m : AggregatorMap)
    (e : AggregatorUpdatedArgs) (hz : e.aggregator = zeroAddress)
    (i o : String) :
    lookupAggregator (applyAggregatorUpdated m e) i o =
      if i = e.input ∧ o = e.output then none else lookupAggregator m i o := by
  have hL : ∀ j,
      (m.map (fun p => if p.1 = e.input then (p.1, mapDelete p.2 e.output) else p)).lookup j
        = if j = e.input then
            (m.lookup e.input).map (fun l => mapDelete l e.output)
          else m.lookup j :=
    fun j => lookup_map_replace m e.input j (fun l => mapDelete l e.output)
  unfold applyAggregatorUpdated
  rw [if_pos hz]
  show lookupAggregator
      (if (m.map (fun p => if p.1 = e.input then (p.1, mapDelete p.2 e.output) else p)).lookup
          e.input = some [] then
        mapDelete
          (m.map (fun p => if p.1 = e.input then (p.1, mapDelete p.2 e.output) else p))
          e.input
      else
        m.map (fun p => if p.1 = e.input then (p.1, mapDelete p.2 e.output) else p))
      i o = _
  by_cases hprune :
      (m.map (fun p => if p.1 = e.input then (p.1, mapDelete p.2 e.output) else p)).lookup
        e.input = some []
  · rw [if_pos hprune]
    rw [hL e.input, if_pos rfl] at hprune
    unfold lookupAggregator
    rw [lookup_mapDelete]
    by_cases hi : i = e.input
    · subst hi
      rw [if_pos rfl]
      rcases hmi : m.lookup e.input with _ | inner
      · simp [hmi]
      · rw [hmi] at hprune
        simp only [Option.map_some'] at hprune
        have hdel : mapDelete inner e.output = [] := Option.some.inj hprune
        by_cases ho : o = e.output
        · simp [ho]
        · have hnone : inner.lookup o = none := by
            have hx := lookup_mapDelete inner e.output o
            rw [hdel, if_neg ho] at hx
            exact hx.symm
          simp [hmi, hnone, ho]
    · rw [if_neg hi, hL i, if_neg hi,
        if_neg (fun h : i = e.input ∧ o = e.output => hi h.1)]
  · rw [if_neg hprune]
    unfold lookupAggregator
    rw [hL i]
    by_cases hi : i = e.input
    · subst hi
      rw [if_pos rfl]
      rcases hmi : m.lookup e.input with _ | inner
      · simp [hmi]
      · by_cases ho : o = e.output
        · subst ho
          simp [hmi, lookup_mapDelete]
        · rw [if_neg (fun h : e.input = e.input ∧ o = e.output => ho h.2)]
          simp [hmi, lookup_mapDelete, ho]
    · rw [if_neg hi, if_neg (fun h : i = e.input ∧ o = e.output => hi h.1)]

/-- Lookup characterization of a non-zero `AggregatorUpdated` step: the
`(input, output)` edge now maps to the event's aggregator and every other
edge is untouched. -/
theorem lookup_applyAggregatorUpdated_upsert (m : AggregatorMap)
    (e : AggregatorUpdatedArgs) (hnz : e.aggregator ≠ zeroAddress)
    (i o : String) :
    lookupAggregator (applyAggregatorUpdated m e) i o =
      if i = e.input ∧ o = e.output then some e.aggregator
      else lookupAggregator m i o := by
  unfold applyAggregatorUpdated
  rw [if_neg hnz]
  rcases hmi : m.lookup e.input with _ | inner
  · unfold lookupAggregator
    rw [lookup_append_str]
    by_cases hi : i = e.input
    · subst hi
      rw [hmi]
      by_cases ho : o = e.output
      · subst ho
        simp [lookup_cons_eq_ite, List.lookup]
      · rw [if_neg (fun h : e.input = e.input ∧ o = e.output => ho h.2)]
        simp [lookup_cons_eq_ite, List.lookup, ho, beq_eq_false_iff_ne.mpr ho]
    · rw [if_neg (fun h : i = e.input ∧ o = e.output => hi h.1)]
      have hsingle : List.lookup i [(e.input, [(e.output, e.aggregator)])] = none := by
        rw [lookup_cons_eq_ite, if_neg hi]
        rfl
      rw [hsingle]
      rcases hx : m.lookup i with _ | l
      · simp
      · simp
  · unfold lookupAggregator
    rw [lookup_mapSet]
    by_cases hi : i = e.input
    · subst hi
      rw [if_pos rfl, hmi]
      by_cases ho : o = e.output
      · subst ho
        simp [lookup_mapSet]
      · rw [if_neg (fun h : e.input = e.input ∧ o = e.output => ho h.2)]
        simp [lookup_mapSet, ho]
    · rw [if_neg hi, if_neg (fun h : i = e.input ∧ o = e.output => hi h.1)]

/-- When a zero-address event empties the inner map of its input currency,
the input key itself is removed from the rebuilt map. -/
theorem applyAggregatorUpdated_zero_prunes_input (m : AggregatorMap)
    (e : AggregatorUpdatedArgs) (hz : e.aggregator = zeroAddress)
    (inner : List (String × String)) (hmi : m.lookup e.input = some inner)
    (hdel : mapDelete inner e.output = []) :
    (applyAggregatorUpdated m e).lookup e.input = none := by
  have hL :
      (m.map (fun p => if p.1 = e.input then (p.1, mapDelete p.2 e.output) else p)).lookup
        e.input
        = some (mapDelete inner e.output) := by
    rw [lookup_map_replace m e.input e.input (fun l => mapDelete l e.output),
      if_pos rfl, hmi]
    rfl
  unfold applyAggregatorUpdated
  rw [if_pos hz]
  show (if (m.map (fun p => if p.1 = e.input then (p.1, mapDelete p.2 e.output) else p)).lookup
          e.input = some [] then
        mapDelete
          (m.map (fun p => if p.1 = e.input then (p.1, mapDelete p.2 e.output) else p))
          e.input
      else
        m.map (fun p => if p.1 = e.input then (p.1, mapDelete p.2 e.output) else p)).lookup
      e.input = none
  rw [if_pos (by rw [hL, hdel]), lookup_mapDelete, if_pos rfl]

/-- Claim C5: the aggregator-map rebuild fold is deterministic; a
zero-address event removes the `(input, output)` edge, leaves every other
edge untouched, and removes the input key entirely once its inner map is
emptied; any other event upserts its edge and leaves every other edge
untouched; and a zero-address removal immediately followed by an event
re-adding the same `(input, output, aggregator)` restores every edge of the
prior map. -/
theorem getAggregators_fold_properties (E : List AggregatorUpdatedArgs)
    (m : AggregatorMap) (e e2 : AggregatorUpdatedArgs) :
    (getAggregators E = getAggregators E) ∧
    (e.aggregator = zeroAddress →
      lookupAggregator (applyAggregatorUpdated m e) e.input e.output = none ∧
      (∀ i o, ¬ (i = e.input ∧ o = e.output) →
        lookupAggregator (applyAggregatorUpdated m e) i o =
          lookupAggregator m i o) ∧
      (∀ inner, m.lookup e.input = some inner →
        mapDelete inner e.output = [] →
        (applyAggregatorUpdated m e).lookup e.input = none)) ∧
    (e.aggregator ≠ zeroAddress →
      lookupAggregator (applyAggregatorUpdated m e) e.input e.output =
        some e.aggregator ∧
      (∀ i o, ¬ (i = e.input ∧ o = e.output) →
        lookupAggregator (applyAggregatorUpdated m e) i o =
          lookupAggregator m i o)) ∧
    (e.aggregator = zeroAddress → e2.input = e.input → e2.output = e.output →
      e2.aggregator ≠ zeroAddress →
      lookupAggregator m e.input e.output = some e2.aggregator →
      ∀ i o,
        lookupAggregator (applyAggregatorUpdated (applyAggregatorUpdated m e) e2)
          i o = lookupAggregator m i o) := by
  refine ⟨rfl, ?_, ?_, ?_⟩
  · intro hz
    refine ⟨?_, ?_, ?_⟩
    · rw [lookup_applyAggregatorUpdated_zero m e hz, if_pos ⟨rfl, rfl⟩]
    · intro i o hio
      rw [lookup_applyAggregatorUpdated_zero m e hz, if_neg hio]
    · intro inner hmi hdel
      exact applyAggregatorUpdated_zero_prunes_input m e hz inner hmi hdel
  · intro hnz
    refine ⟨?_, ?_⟩
    · rw [lookup_applyAggregatorUpdated_upsert m e hnz, if_pos ⟨rfl, rfl⟩]
    · intro i o hio
      rw [lookup_applyAggregatorUpdated_upsert m e hnz, if_neg hio]
  · intro hz hin hout hnz2 hprev i o
    rw [lookup_applyAggregatorUpdated_upsert _ e2 hnz2,
      lookup_applyAggregatorUpdated_zero m e hz]
    by_cases hio : i = e2.input ∧ o = e2.output
    · rw [if_pos hio, hio.1, hio.2, hin, hout, hprev]
    · rw [if_neg hio, if_neg (by rw [← hin, ← hout]; exact hio)]

/-- Claim C5 witness: on the one-edge map `eur -> usd -> 0xagg1`, deleting
the edge with a zero-address event and re-adding the same aggregator
restores the edge, and the intermediate map has neither the edge nor the
`eur` key. -/
theorem getAggregators_fold_properties_witness :
    (AggregatorUpdatedArgs.mk "eur" "usd" zeroAddress).aggregator = zeroAddress ∧
    lookupAggregator
      (applyAggregatorUpdated [("eur", [("usd", "0xagg1")])]
        ⟨"eur", "usd", zeroAddress⟩) "eur" "usd" = none ∧
    (applyAggregatorUpdated [("eur", [("usd", "0xagg1")])]
      ⟨"eur", "usd", zeroAddress⟩).lookup "eur" = none ∧
    lookupAggregator
      (applyAggregatorUpdated
        (applyAggregatorUpdated [("eur", [("usd", "0xagg1")])]
          ⟨"eur", "usd", zeroAddress⟩)
        ⟨"eur", "usd", "0xagg1"⟩) "eur" "usd" =
      lookupAggregator [("eur", [("usd", "0xagg1")])] "eur" "usd" :=
  ⟨rfl,
    ((getAggregators_fold_properties [] [("eur", [("usd", "0xagg1")])]
      ⟨"eur", "usd", zeroAddress⟩ ⟨"eur", "usd", "0xagg1"⟩).2.1 rfl).1,
    ((getAggregators_fold_properties [] [("eur", [("usd", "0xagg1")])]
      ⟨"eur", "usd", zeroAddress⟩ ⟨"eur", "usd", "0xagg1"⟩).2.1 rfl).2.2
      [("usd", "0xagg1")] rfl (by decide),
    (getAggregators_fold_properties [] [("eur", [("usd", "0xagg1")])]
      ⟨"eur", "usd", zeroAddress⟩ ⟨"eur", "usd", "0xagg1"⟩).2.2.2 rfl rfl rfl
      (by decide) rfl "eur" "usd"⟩

end ChainlinkTools

/-! ## Claims about `PaymentNetworkERC20AddressBased.getBalance` -/

namespace AddressBased

theorem foldl_amount_eq_sum (l : List ERC20Event) (i : Int) :
    l.foldl (fun acc event => acc + event.amount) i =
      i + (l.map (fun event => event.amount)).sum := by
  induction l generalizing i with
  | nil => simp
  | cons e t ih =>
    simp only [List.foldl_cons, List.map_cons, List.sum_cons, ih]
    ring

theorem tsKey_le_trans (a b c : ERC20Event) :
    decide (tsKey a ≤ tsKey b) = true → decide (tsKey b ≤ tsKey c) = true →
    decide (tsKey a ≤ tsKey c) = true := by
  intro h1 h2
  simp only [decide_eq_true_eq] at h1 h2 ⊢
  omega

theorem tsKey_le_total (a b : ERC20Event) :
    (decide (tsKey a ≤ tsKey b) || decide (tsKey b ≤ tsKey a)) = true := by
  simp only [Bool.or_eq_true, decide_eq_true_eq]
  exact Nat.le_total (tsKey a) (tsKey b)

theorem mergeSort_ts_sorted (l : List ERC20Event) :
    (l.mergeSort (fun a b => tsKey a ≤ tsKey b)).Pairwise
      (fun a b => tsKey a ≤ tsKey b) := by
  have h :=
    @List.sorted_mergeSort ERC20Event (fun a b => decide (tsKey a ≤ tsKey b))
      tsKey_le_trans tsKey_le_total l
  exact h.imp (fun hd => of_decide_eq_true hd)

/-- Claim C2: for every retriever and request with a supported network and
both addresses present, `getBalance` returns the sum of the retrieved
payment amounts minus the sum of the retrieved refund amounts, computed on
arbitrary-precision integers, together with the two event lists merged and
re-sorted by ascending timestamp (a permutation of their concatenation,
pairwise sorted by `timestamp || 0`). -/
theorem getBalance_balance_and_events (retrieve : RetrieverT) (req : IRequest)
    (pa ra n : String)
    (hn : req.currency.network = some n) (hne : n ≠ "")
    (hsup : supportedNetworks.contains n = true)
    (hpa : req.paymentAddress = some pa) (hpane : pa ≠ "")
    (hra : req.refundAddress = some ra) (hrane : ra ≠ "") :
    ∃ bw, (getBalance retrieve req).1 = Except.ok bw ∧
      bw.balance =
        ((retrieve req.currency.value pa EVENTS_NAMES.PAYMENT n).map
          (fun event => event.amount)).sum -
        ((retrieve req.currency.value ra EVENTS_NAMES.REFUND n).map
          (fun event => event.amount)).sum ∧
      bw.events.Perm
        (retrieve req.currency.value pa EVENTS_NAMES.PAYMENT n ++
          retrieve req.currency.value ra EVENTS_NAMES.REFUND n) ∧
      bw.events.Pairwise (fun a b => tsKey a ≤ tsKey b) := by
  have hres : (getBalance retrieve req).1 = Except.ok
      { balance :=
          (retrieve req.currency.value pa EVENTS_NAMES.PAYMENT n).foldl
            (fun acc event => acc + event.amount) 0 -
          (retrieve req.currency.value ra EVENTS_NAMES.REFUND n).foldl
            (fun acc event => acc + event.amount) 0,
        events :=
          ((retrieve req.currency.value pa EVENTS_NAMES.PAYMENT n) ++
            (retrieve req.currency.value ra EVENTS_NAMES.REFUND n)).mergeSort
            (fun a b => tsKey a ≤ tsKey b) } := by
    have hmem : n ∈ supportedNetworks := by simpa using hsup
    simp [getBalance, extractBalanceAndEvents, hn, hne, hmem, hpa, hpane, hra,
      hrane, isFalsyStr]
  refine ⟨_, hres, ?_, ?_, ?_⟩
  · simp [foldl_amount_eq_sum]
  · exact List.mergeSort_perm _ _
  · exact mergeSort_ts_sorted _

end AddressBased

namespace AddressBased

/-- The concrete retriever of the balance example: payment amounts 100 and
50 (timestamps 10 and 30), refund amount 30 (timestamp 20). -/
def exampleRetriever : RetrieverT := fun _ _ eventName _ =>
  if eventName = EVENTS_NAMES.PAYMENT then
    [⟨EVENTS_NAMES.PAYMENT, 100, some 10⟩, ⟨EVENTS_NAMES.PAYMENT, 50, some 30⟩]
  else [⟨EVENTS_NAMES.REFUND, 30, some 20⟩]

/-- The concrete request of the balance example. -/
def exampleRequest : IRequest :=
  ⟨⟨"0xtok", some "mainnet"⟩, some "0xpay", some "0xref"⟩

unseal List.merge List.mergeSort in
/-- Claim C2 witness: payment events of amounts 100 and 50 (timestamps 10
and 30) and a refund event of amount 30 (timestamp 20) yield balance 120
and the three events in ascending timestamp order. -/
theorem getBalance_balance_and_events_witness :
    exampleRequest.currency.network = some "mainnet" ∧
    supportedNetworks.contains "mainnet" = true ∧
    (∃ bw, (getBalance exampleRetriever exampleRequest).1 = Except.ok bw ∧
      bw.balance =
        ((exampleRetriever exampleRequest.currency.value "0xpay"
          EVENTS_NAMES.PAYMENT "mainnet").map (fun event => event.amount)).sum -
        ((exampleRetriever exampleRequest.currency.value "0xref"
          EVENTS_NAMES.REFUND "mainnet").map (fun event => event.amount)).sum ∧
      bw.events.Perm
        (exampleRetriever exampleRequest.currency.value "0xpay"
          EVENTS_NAMES.PAYMENT "mainnet" ++
          exampleRetriever exampleRequest.currency.value "0xref"
            EVENTS_NAMES.REFUND "mainnet") ∧
      bw.events.Pairwise (fun a b => tsKey a ≤ tsKey b)) ∧
    (getBalance exampleRetriever exampleRequest).1 =
      Except.ok
        { balance := 120,
          events :=
            [⟨EVENTS_NAMES.PAYMENT, 100, some 10⟩,
              ⟨EVENTS_NAMES.REFUND, 30, some 20⟩,
              ⟨EVENTS_NAMES.PAYMENT, 50, some 30⟩] } :=
  ⟨rfl, rfl,
    getBalance_balance_and_events exampleRetriever exampleRequest
      "0xpay" "0xref" "mainnet" rfl (by decide) rfl rfl (by decide) rfl
      (by decide),
    rfl⟩

end AddressBased

namespace AddressBased

theorem isFalsyStr_eq_true_cases (o : Option String) (h : isFalsyStr o = true) :
    o = none ∨ o = some "" := by
  rcases o with _ | s
  · exact Or.inl rfl
  · simp only [isFalsyStr, decide_eq_true_eq] at h
    exact Or.inr (by rw [h])

/-- Claim C7: when the request's currency network, after JS-falsy defaulting
to `mainnet`, is not one of the supported networks, `getBalance` fails with
the unsupported-network error and its result does not depend on the ledger
retriever (no ledger query is issued); on a supported network, a falsy
(absent or empty) payment address contributes balance zero and no events —
the result is the negated refund sum over the refund events alone — and
symmetrically for a falsy refund address; with both addresses falsy the
result is balance zero with no events. -/
theorem getBalance_network_gate_and_absent_addresses
    (retrieve retrieve2 : RetrieverT) (req : IRequest) (n pa ra : String) :
    (String.intercalate ", " supportedNetworks = "mainnet, rinkeby, private") ∧
    (falsyOr req.currency.network "mainnet" = n →
      supportedNetworks.contains n = false →
      (getBalance retrieve req).1 =
        Except.error ("Payment network " ++ n ++
          " not supported by ERC20 payment detection. Supported networks: " ++
          String.intercalate ", " supportedNetworks) ∧
      (getBalance retrieve req).1 = (getBalance retrieve2 req).1) ∧
    (falsyOr req.currency.network "mainnet" = n →
      supportedNetworks.contains n = true →
      isFalsyStr req.paymentAddress = true →
      req.refundAddress = some ra → ra ≠ "" →
      ∃ bw, (getBalance retrieve req).1 = Except.ok bw ∧
        bw.balance = 0 -
          ((retrieve req.currency.value ra EVENTS_NAMES.REFUND n).map
            (fun event => event.amount)).sum ∧
        bw.events.Perm (retrieve req.currency.value ra EVENTS_NAMES.REFUND n)) ∧
    (falsyOr req.currency.network "mainnet" = n →
      supportedNetworks.contains n = true →
      req.paymentAddress = some pa → pa ≠ "" →
      isFalsyStr req.refundAddress = true →
      ∃ bw, (getBalance retrieve req).1 = Except.ok bw ∧
        bw.balance =
          ((retrieve req.currency.value pa EVENTS_NAMES.PAYMENT n).map
            (fun event => event.amount)).sum - 0 ∧
        bw.events.Perm (retrieve req.currency.value pa EVENTS_NAMES.PAYMENT n)) ∧
    (falsyOr req.currency.network "mainnet" = n →
      supportedNetworks.contains n = true →
      isFalsyStr req.paymentAddress = true →
      isFalsyStr req.refundAddress = true →
      (getBalance retrieve req).1 = Except.ok ⟨0, []⟩) := by
  obtain ⟨⟨v, net⟩, paO, raO⟩ := req
  have hresolve : ∀ n2 : String, falsyOr net "mainnet" = n2 →
      (net = none ∧ n2 = "mainnet") ∨ (net = some "" ∧ n2 = "mainnet") ∨
      (net = some n2 ∧ n2 ≠ "") := by
    intro n2 h
    rcases net with _ | s
    · simp only [falsyOr] at h
      exact Or.inl ⟨rfl, h.symm⟩
    · by_cases hs : s = ""
      · subst hs
        simp only [falsyOr, if_pos rfl] at h
        exact Or.inr (Or.inl ⟨rfl, h.symm⟩)
      · simp only [falsyOr, if_neg hs] at h
        subst h
        exact Or.inr (Or.inr ⟨rfl, hs⟩)
  refine ⟨rfl, ?_, ?_, ?_, ?_⟩
  · intro hfo hsup
    rcases hresolve n hfo with ⟨hnet, hn⟩ | ⟨hnet, hn⟩ | ⟨hnet, hn⟩
    · subst hn
      exact absurd hsup (by decide)
    · subst hn
      exact absurd hsup (by decide)
    · subst hnet
      have hmem : n ∉ supportedNetworks := by simpa using hsup
      constructor
      · simp [getBalance, isFalsyStr, hn, hmem]
      · simp [getBalance, isFalsyStr, hn, hmem]
  · intro hfo hsup hpafalsy hra hrane
    subst hra
    have hres : ∀ r : RetrieverT, (getBalance r ⟨⟨v, net⟩, paO, some ra⟩).1 =
        Except.ok
          { balance := 0 -
              (r v ra EVENTS_NAMES.REFUND n).foldl
                (fun acc event => acc + event.amount) 0,
            events :=
              (([] : List ERC20Event) ++ r v ra EVENTS_NAMES.REFUND n).mergeSort
                (fun a b => tsKey a ≤ tsKey b) } := by
      intro r
      have hmem : n ∈ supportedNetworks := by simpa using hsup
      rcases isFalsyStr_eq_true_cases paO hpafalsy with hp | hp <;> subst hp <;>
        rcases hresolve n hfo with ⟨hnet, hn⟩ | ⟨hnet, hn⟩ | ⟨hnet, hn⟩ <;>
        first
        | (obtain ⟨rfl, rfl⟩ := And.intro hnet hn
           simp [getBalance, extractBalanceAndEvents, isFalsyStr, hrane, hmem])
        | (obtain ⟨rfl, -⟩ := And.intro hnet hn
           simp [getBalance, extractBalanceAndEvents, isFalsyStr, hrane, hn, hmem])
    refine ⟨_, hres retrieve, ?_, ?_⟩
    · simp [foldl_amount_eq_sum]
    · simpa using List.mergeSort_perm
        (([] : List ERC20Event) ++ retrieve v ra EVENTS_NAMES.REFUND n)
        (fun a b => decide (tsKey a ≤ tsKey b))
  · intro hfo hsup hpa hpane hrafalsy
    subst hpa
    have hres : ∀ r : RetrieverT, (getBalance r ⟨⟨v, net⟩, some pa, raO⟩).1 =
        Except.ok
          { balance :=
              (r v pa EVENTS_NAMES.PAYMENT n).foldl
                (fun acc event => acc + event.amount) 0 - 0,
            events :=
              (r v pa EVENTS_NAMES.PAYMENT n ++ ([] : List ERC20Event)).mergeSort
                (fun a b => tsKey a ≤ tsKey b) } := by
      intro r
      have hmem : n ∈ supportedNetworks := by simpa using hsup
      rcases isFalsyStr_eq_true_cases raO hrafalsy with hp | hp <;> subst hp <;>
        rcases hresolve n hfo with ⟨hnet, hn⟩ | ⟨hnet, hn⟩ | ⟨hnet, hn⟩ <;>
        first
        | (obtain ⟨rfl, rfl⟩ := And.intro hnet hn
           simp [getBalance, extractBalanceAndEvents, isFalsyStr, hpane, hmem])
        | (obtain ⟨rfl, -⟩ := And.intro hnet hn
           simp [getBalance, extractBalanceAndEvents, isFalsyStr, hpane, hn, hmem])
    refine ⟨_, hres retrieve, ?_, ?_⟩
    · simp [foldl_amount_eq_sum]
    · simpa using List.mergeSort_perm
        (retrieve v pa EVENTS_NAMES.PAYMENT n ++ ([] : List ERC20Event))
        (fun a b => decide (tsKey a ≤ tsKey b))
  · intro hfo hsup hpafalsy hrafalsy
    have hperm :=
      List.mergeSort_perm (([] : List ERC20Event) ++ ([] : List ERC20Event))
        (fun a b => decide (tsKey a ≤ tsKey b))
    have hnil : (([] : List ERC20Event) ++ ([] : List ERC20Event)).mergeSort
        (fun a b => tsKey a ≤ tsKey b) = [] :=
      List.perm_nil.mp hperm
    have hmem : n ∈ supportedNetworks := by simpa using hsup
    rcases isFalsyStr_eq_true_cases paO hpafalsy with hp | hp <;> subst hp <;>
      rcases isFalsyStr_eq_true_cases raO hrafalsy with hq | hq <;> subst hq <;>
      rcases hresolve n hfo with ⟨hnet, hn⟩ | ⟨hnet, hn⟩ | ⟨hnet, hn⟩ <;>
      first
      | (obtain ⟨rfl, rfl⟩ := And.intro hnet hn
         simp [getBalance, isFalsyStr, hnil, hmem])
      | (obtain ⟨rfl, -⟩ := And.intro hnet hn
         simp [getBalance, isFalsyStr, hnil, hn, hmem])

/-- Claim C7 witness: the network `ropsten` is rejected independently of the
retriever, and on `mainnet` with only a refund address present the balance
is the negated refund sum. -/
theorem getBalance_network_gate_witness :
    (falsyOr (some "ropsten") "mainnet" = "ropsten" ∧
      supportedNetworks.contains "ropsten" = false ∧
      (getBalance exampleRetriever ⟨⟨"0xtok", some "ropsten"⟩, none, none⟩).1 =
        Except.error ("Payment network ropsten not supported by ERC20 payment detection. Supported networks: " ++
          String.intercalate ", " supportedNetworks)) ∧
    (falsyOr (none : Option String) "mainnet" = "mainnet" ∧
      supportedNetworks.contains "mainnet" = true ∧
      isFalsyStr (none : Option String) = true ∧
      ∃ bw, (getBalance exampleRetriever ⟨⟨"0xtok", none⟩, none, some "0xref"⟩).1 =
          Except.ok bw ∧
        bw.balance = 0 -
          ((exampleRetriever "0xtok" "0xref" EVENTS_NAMES.REFUND "mainnet").map
            (fun event => event.amount)).sum ∧
        bw.events.Perm (exampleRetriever "0xtok" "0xref" EVENTS_NAMES.REFUND "mainnet")) :=
  ⟨⟨rfl, by decide,
    ((getBalance_network_gate_and_absent_addresses exampleRetriever
      exampleRetriever ⟨⟨"0xtok", some "ropsten"⟩, none, none⟩ "ropsten" "x" "x").2.1
      rfl (by decide)).1⟩,
   ⟨rfl, by decide, rfl,
    (getBalance_network_gate_and_absent_addresses exampleRetriever
      exampleRetriever ⟨⟨"0xtok", none⟩, none, some "0xref"⟩ "mainnet" "x" "0xref").2.2.1
      rfl (by decide) rfl rfl (by decide)⟩⟩

end AddressBased

namespace AddressBased

/-- Claim C8 (counterexample): `getBalance` is not pure with respect to its
request argument: on a request whose `currency.network` is absent, the
request object after the call differs from the one before — the call has
set `currency.network` to `mainnet`. -/
theorem getBalance_mutates_request :
    (getBalance (fun _ _ _ _ => []) ⟨⟨"0xtok", none⟩, none, none⟩).2 ≠
      (⟨⟨"0xtok", none⟩, none, none⟩ : IRequest) ∧
    (getBalance (fun _ _ _ _ => []) ⟨⟨"0xtok", none⟩, none, none⟩).2 =
      ⟨⟨"0xtok", some "mainnet"⟩, none, none⟩ := by
  have hm : ("mainnet" : String) ∈ supportedNetworks := by decide
  constructor
  · intro h
    have hnet := congrArg (fun r : IRequest => r.currency.network) h
    simp [getBalance, isFalsyStr, hm] at hnet
  · simp [getBalance, isFalsyStr, hm]

/-- Claim C8 (amended): `getBalance` leaves the request unchanged whenever
`request.currency.network` is already a non-empty value; its only mutation
is the defaulting of a JS-falsy (absent or empty) `currency.network` to
`mainnet`, for every retriever and both on the error and on the success
path. -/
theorem getBalance_request_mutation (retrieve : RetrieverT) (req : IRequest) :
    (∀ n, req.currency.network = some n → n ≠ "" →
      (getBalance retrieve req).2 = req) ∧
    (isFalsyStr req.currency.network = true →
      (getBalance retrieve req).2 =
        { req with currency := { req.currency with network := some "mainnet" } }) := by
  obtain ⟨⟨v, net⟩, paO, raO⟩ := req
  have hsnd : ∀ req2 : IRequest, (getBalance retrieve req2).2 =
      (if isFalsyStr req2.currency.network then
        { req2 with currency := { req2.currency with network := some "mainnet" } }
      else req2) := by
    intro req2
    simp only [getBalance]
    rw [apply_ite Prod.snd]
    simp
  constructor
  · intro n hn hne
    rw [hsnd]
    simp only at hn
    subst hn
    simp [isFalsyStr, hne]
  · intro hfalsy
    rw [hsnd, if_pos hfalsy]

/-- Claim C8 witness: with `currency.network = rinkeby` the request is
returned unchanged. -/
theorem getBalance_request_mutation_witness :
    (⟨⟨"0xtok", some "rinkeby"⟩, none, none⟩ : IRequest).currency.network =
      some "rinkeby" ∧
    ("rinkeby" : String) ≠ "" ∧
    (getBalance exampleRetriever ⟨⟨"0xtok", some "rinkeby"⟩, none, none⟩).2 =
      ⟨⟨"0xtok", some "rinkeby"⟩, none, none⟩ :=
  ⟨rfl, by decide,
    (getBalance_request_mutation exampleRetriever
      ⟨⟨"0xtok", some "rinkeby"⟩, none, none⟩).1 "rinkeby" rfl (by decide)⟩

end AddressBased
